import Mathlib

/-!
Shallow embedding of the provider discovery & enrichment pipeline of the
localsolarproviders.org repository, translated from:
  - src/src/lib/overpass.ts                (geo-discovery client)
  - src/src/app/api/stats/route.ts         (discovery run + candidate reconciler)
  - src/src/app/api/enrich/[id]/route.ts   (website enrichment route, specialty replace)
  - src/unnamed/part_008                   (website crawler, specialty classifier)
  - src/unnamed/part_007                   (EnrichmentPipeline, CapacityEstimator)
  - src/unnamed/part_015                   (specialty seed data)

JavaScript numbers are modelled as rationals, JavaScript strings as Lean
strings, and optional / possibly-undefined values as Option.  External
effects (fetch, geocoding, the robots.txt parser library, the database)
are passed in as explicit oracle arguments; the functions below compute
the pure data transformations the TypeScript code performs on their
results.
-/

set_option allowUnsafeReducibility true
attribute [semireducible] Rat.add Rat.sub Rat.mul Rat.inv Rat.ofScientific

namespace SolarPipeline

/-! JavaScript truthiness helpers.  In the source, numbers are tested with
bare truthiness (`if (!lat)`), so 0 behaves as missing, and strings with
bare truthiness, so the empty string behaves as missing. -/

/-- Truthiness of an optional JS number: undefined and 0 are falsy. -/
def numTruthy : Option ℚ → Bool
  | none => false
  | some q => decide (q ≠ 0)

/-- Truthiness of an optional JS string: undefined and the empty string are falsy. -/
def strTruthy : Option String → Bool
  | none => false
  | some s => decide (s ≠ "")

/-- JS `a || b` on optional strings: returns `b` whenever `a` is falsy. -/
def jsOrStr (a b : Option String) : Option String :=
  if strTruthy a then a else b

/-- JS `a || b` on an optional number with a numeric default: returns `b` whenever `a` is falsy. -/
def jsOrQ (a : Option ℚ) (b : ℚ) : ℚ :=
  match a with
  | none => b
  | some q => if q = 0 then b else q

/-- List-level substring test: does `needle` occur contiguously inside `haystack`? -/
def includesL [BEq α] (needle : List α) : List α → Bool
  | [] => needle.isEmpty
  | h :: t => needle.isPrefixOf (h :: t) || includesL needle t

/-- JS `text.includes(kw)`: substring containment on strings. -/
def includes (text kw : String) : Bool :=
  includesL kw.toList text.toList

/-- JS `Math.abs` on a number. -/
def jsAbs (q : ℚ) : ℚ := if q < 0 then -q else q

/-- JS `s.toLowerCase()`, character by character. -/
def strToLower (s : String) : String := String.mk (s.toList.map Char.toLower)

/-- JS `s.startsWith(p)`. -/
def strStartsWith (s p : String) : Bool := p.toList.isPrefixOf s.toList

/-- Trimming of leading and trailing whitespace (JS `s.trim()`). -/
def trimWs (l : List Char) : List Char :=
  ((l.dropWhile Char.isWhitespace).reverse.dropWhile Char.isWhitespace).reverse

/-! Geo-discovery client, from src/src/lib/overpass.ts. -/

/-- Element returned by the Overpass API (`OverpassResult` in the source):
optional direct coordinates, an optional `center` pair (present on
ways/relations, and carrying both components whenever present), and a
string-to-string tag record. -/
structure OverpassElement where
  etype : String
  eid : Nat
  lat : Option ℚ
  lon : Option ℚ
  center : Option (ℚ × ℚ)
  tags : List (String × String)
deriving DecidableEq, Repr

/-- Record lookup `element.tags[k]` on the tag record. -/
def lookupTag (e : OverpassElement) (k : String) : Option String :=
  e.tags.lookup k

/-- Outgoing HTTP request as the `fetch` API sees it.  The default method of
`fetch` is GET and a request carries no body unless one is given. -/
structure HttpRequest where
  url : String
  method : String
  body : Option String
  userAgent : String
deriving DecidableEq, Repr

/-- Request built by `rateLimitedFetch(url)` in overpass.ts.  The function
declares exactly one parameter (`url`) and calls
`fetch(url, { headers: ..., signal: ... })`: no method and no body are ever
supplied, so the request is a GET with no body. -/
def rateLimitedFetchRequest (url : String) : HttpRequest :=
  { url := url
    method := "GET"
    body := none
    userAgent := "SolarProvidersOnline/1.0 (https://solarprovidersonline.com; educational/research use)" }

/-- Rendering of a JS number inside a template literal. -/
def qStr (q : ℚ) : String := toString q

/-- An `around` clause of the Overpass query template in
`discoverSolarInstallers` (e.g. `nwr(around:R,LAT,LON)["name"~"(?i)solar"];`). -/
def aroundClause (radiusMeters lat lon : ℚ) (filters : String) : String :=
  "nwr(around:" ++ qStr radiusMeters ++ "," ++ qStr lat ++ "," ++ qStr lon ++ ")" ++ filters ++ ";"

/-- Overpass QL query assembled by `discoverSolarInstallers`: six independent
tag-predicate clauses inside a union group, each matching solar-related
businesses case-insensitively. -/
def overpassQuery (radiusMeters lat lon : ℚ) : String :=
  "[out:json][timeout:25];(" ++
  aroundClause radiusMeters lat lon "[\"name\"~\"(?i)solar\"]" ++
  aroundClause radiusMeters lat lon "[\"craft\"~\"(?i)solar\"]" ++
  aroundClause radiusMeters lat lon "[\"shop\"~\"(?i)electrical|electronics\"][\"name\"~\"(?i)solar\"]" ++
  aroundClause radiusMeters lat lon "[\"office\"~\"(?i)company|it\"][\"name\"~\"(?i)solar\"]" ++
  aroundClause radiusMeters lat lon "[\"brand\"~\"(?i)solar\"]" ++
  aroundClause radiusMeters lat lon "[\"office\"=\"energy_supplier\"][\"name\"~\"(?i)solar\"]" ++
  ");out center tags;"

/-- Request actually issued by `discoverSolarInstallers`.  The call site is
`rateLimitedFetch(url, { method: POST, body: query, ... } as any)`, but
`rateLimitedFetch` accepts only its first parameter, so JavaScript discards
the second argument and the constructed query never reaches the wire. -/
def discoverFetchRequest (_lat _lon _radiusMeters : ℚ) : HttpRequest :=
  rateLimitedFetchRequest "https://overpass-api.de/api/interpreter"

/-- Coordinate-presence test of the discovery filter:
`element.lat && element.lon || element.center?.lat && element.center?.lon`,
i.e. JS truthiness of each numeric component. -/
def hasCoords (e : OverpassElement) : Bool :=
  (numTruthy e.lat && numTruthy e.lon) ||
  (match e.center with
   | some c => numTruthy (some c.1) && numTruthy (some c.2)
   | none => false)

/-- Coordinates used for the candidate:
`element.center || { lat: element.lat!, lon: element.lon! }` — the center
pair is preferred whenever present (a present object is always truthy). -/
def resolvedCoords (e : OverpassElement) : ℚ × ℚ :=
  match e.center with
  | some c => c
  | none => (e.lat.getD 0, e.lon.getD 0)

/-- Discovery output record (`InstallerCandidate` in overpass.ts). -/
structure InstallerCandidate where
  osmId : String
  name : String
  lat : ℚ
  lon : ℚ
  address : Option String
  city : Option String
  state : Option String
  postal : Option String
  phone : Option String
  website : Option String
deriving DecidableEq, Repr

/-- Street address assembled by `buildAddress`: house number and street when
present, space separated, else undefined. -/
def buildAddress (e : OverpassElement) : Option String :=
  let parts := [lookupTag e "addr:housenumber", lookupTag e "addr:street"].filterMap id
  if parts.length > 0 then some (String.intercalate " " parts) else none

/-- Mapping step of `discoverSolarInstallers` from a filtered element to a
candidate record. -/
def toCandidate (e : OverpassElement) : InstallerCandidate :=
  let coords := resolvedCoords e
  { osmId := e.etype ++ "/" ++ toString e.eid
    name := (lookupTag e "name").getD ""
    lat := coords.1
    lon := coords.2
    address := buildAddress e
    city := lookupTag e "addr:city"
    state := lookupTag e "addr:state"
    postal := lookupTag e "addr:postcode"
    phone := jsOrStr (lookupTag e "phone") (lookupTag e "contact:phone")
    website := jsOrStr (lookupTag e "website") (lookupTag e "contact:website") }

/-- Duplicate test of the final discovery filter: same case-insensitive name
and both coordinates strictly within 0.001 degrees. -/
def dupNear (c other : InstallerCandidate) : Bool :=
  strToLower other.name == strToLower c.name &&
  decide (jsAbs (other.lat - c.lat) < 1/1000) &&
  decide (jsAbs (other.lon - c.lon) < 1/1000)

/-- Dedup step `arr.filter((candidate, index, arr) => arr.findIndex(...) === index)`:
a candidate survives iff the first near-duplicate in the array is itself. -/
def dedupCandidates (l : List InstallerCandidate) : List InstallerCandidate :=
  (l.enum.filter (fun p => l.findIdx (fun other => dupNear p.2 other) == p.1)).map Prod.snd

/-- Pure tail of `discoverSolarInstallers`: given the elements of a parsed
Overpass response, keep elements with a truthy name tag and truthy
coordinates, map them to candidates, and deduplicate. -/
def discoverSolarInstallers (elements : List OverpassElement) : List InstallerCandidate :=
  dedupCandidates
    ((elements.filter (fun e => strTruthy (lookupTag e "name") && hasCoords e)).map toCandidate)

/-! Website crawler and specialty classifier, from src/unnamed/part_008
(the `lib/enrich` module imported by the enrichment route). -/

/-- Keyword-family table `SPECIALTY_KEYWORDS` of the classifier, in source
(insertion) order: sixteen category slugs, each with its keyword variants. -/
def SPECIALTY_KEYWORDS : List (String × List String) := [
  ("battery_backup",
   ["battery", "storage", "powerwall", "enphase iq battery", "solaredge home battery",
    "backup power", "energy storage", "tesla powerwall", "battery backup", "home battery"]),
  ("ev_charger",
   ["ev charger", "evse", "level 2", "nema 14-50", "wall connector", "electric vehicle",
    "ev charging", "tesla charger", "chargepoint", "ev installation"]),
  ("tile_roof",
   ["tile roof", "clay tile", "concrete tile", "spanish tile", "tile installation",
    "tile roofing", "roof tile"]),
  ("metal_roof",
   ["metal roof", "standing seam", "corrugated metal", "steel roof", "aluminum roof",
    "metal roofing"]),
  ("ground_mount",
   ["ground mount", "ground mounted", "field installation", "ground array",
    "pole mount", "ballasted system", "carport", "canopy"]),
  ("off_grid",
   ["off grid", "off-grid", "remote power", "cabin solar", "hybrid inverter",
    "standalone system", "battery system", "grid-tie with battery"]),
  ("microinverters",
   ["microinverter", "micro inverter", "enphase", "iq8", "iq7", "module level",
    "mlpe", "power optimizer"]),
  ("commercial_pv",
   ["commercial", "business", "industrial", "c&i", "warehouse", "office building",
    "retail", "manufacturing", "agricultural"]),
  ("residential_pv",
   ["residential", "home", "house", "homeowner", "rooftop", "family"]),
  ("roofing",
   ["roofing", "re-roof", "roof replacement", "shingle", "comp roof", "asphalt",
    "roof repair", "roofing contractor"]),
  ("storage_only",
   ["battery only", "storage only", "retrofit battery", "add battery",
    "existing solar"]),
  ("solar_maintenance",
   ["maintenance", "repair", "cleaning", "service", "troubleshooting",
    "system monitoring", "performance optimization"]),
  ("energy_audit",
   ["energy audit", "efficiency audit", "home energy assessment", "energy evaluation"]),
  ("financing",
   ["financing", "solar loans", "lease", "ppa", "power purchase agreement",
    "solar financing", "payment plans", "zero down"]),
  ("permits",
   ["permits", "permitting", "interconnection", "utility coordination",
    "ahj approval", "inspection"]),
  ("monitoring",
   ["monitoring", "production monitoring", "system monitoring", "remote monitoring",
    "performance tracking", "enphase enlighten", "solaredge monitoring"])]

/-- Specialty classifier `detectSpecialties`: push each category slug whose
family contains at least one keyword occurring (lowercased) as a substring
of the text, in table order. -/
def detectSpecialties (text : String) : List String :=
  (SPECIALTY_KEYWORDS.filter
    (fun p => p.2.any (fun keyword => includes text (strToLower keyword)))).map Prod.fst

/-- Helper for block removal: the remainder of the stream just after the
first occurrence of the nonempty token `close`, or `none` when `close` does
not occur (or is empty). -/
def splitAfter (close : List Char) : List Char → Option (List Char)
  | [] => none
  | c :: cs =>
    if close ≠ [] ∧ close.isPrefixOf (c :: cs) then some ((c :: cs).drop close.length)
    else splitAfter close cs

/-- Termination measure fact for `removeBlocks`: a successful `splitAfter`
strictly shrinks the stream. -/
def splitAfter_length_lt (close : List Char) :
    ∀ l r : List Char, splitAfter close l = some r → r.length < l.length := by
  intro l
  induction l with
  | nil => intro r hr; simp [splitAfter] at hr
  | cons c0 cs0 ih =>
    intro r hr
    simp only [splitAfter] at hr
    split at hr
    · rename_i hcl
      have hlen : 1 ≤ close.length := by
        cases close with
        | nil => exact absurd rfl hcl.1
        | cons _ _ => simp
      have hreq : r = (c0 :: cs0).drop close.length := Option.some.inj hr.symm
      subst hreq
      simp
      omega
    · exact Nat.lt_trans (ih r hr) (Nat.lt_succ_self _)

/-- Removal of an element block (script or style): delete everything from an
occurrence of `opn` through the next occurrence of `close`; an occurrence of
`opn` never followed by `close` is left in place.  This models the effect of
the source regexes stripping whole script and style elements. -/
def removeBlocks (opn close : List Char) : List Char → List Char
  | [] => []
  | c :: cs =>
    if opn.isPrefixOf (c :: cs) then
      match h : splitAfter close ((c :: cs).drop opn.length) with
      | some rest => removeBlocks opn close rest
      | none => c :: removeBlocks opn close cs
    else c :: removeBlocks opn close cs
termination_by l => l.length
decreasing_by
  · have h1 : rest.length < ((c :: cs).drop opn.length).length :=
      splitAfter_length_lt close _ rest h
    have h2 : ((c :: cs).drop opn.length).length ≤ (c :: cs).length := by
      simp
    simp at h1 h2 ⊢
    omega
  · simp
  · simp

/-- Helper for tag stripping: split off the characters strictly before the
first `>` together with the remainder after it, or `none` when no `>`
occurs. -/
def splitAtGt : List Char → Option (List Char × List Char)
  | [] => none
  | c :: cs =>
    if c = '>' then some ([], cs)
    else (splitAtGt cs).map (fun p => (c :: p.1, p.2))

/-- Termination measure fact for `removeTags`: a successful `splitAtGt`
strictly shrinks the stream. -/
def splitAtGt_length_lt :
    ∀ l : List Char, ∀ a r, splitAtGt l = some (a, r) → r.length < l.length := by
  intro l
  induction l with
  | nil => intro a r hr; simp [splitAtGt] at hr
  | cons c0 cs0 ih =>
    intro a r hr
    simp only [splitAtGt] at hr
    split at hr
    · simp at hr
      simp [hr.2.symm]
    · match hx : splitAtGt cs0 with
      | none => rw [hx] at hr; simp at hr
      | some (a0, r0) =>
        rw [hx] at hr
        simp at hr
        have hlen := ih a0 r0 hx
        rw [← hr.2]
        simp
        omega

/-- Tag stripping `/<[^>]+>/g` replaced by a space: from each `<`, if at
least one non-`>` character follows before the next `>`, the whole tag
becomes one space; a `<` with no such match is kept. -/
def removeTags : List Char → List Char
  | [] => []
  | c :: cs =>
    if c = '<' then
      match h : splitAtGt cs with
      | some (inner, rest) =>
        if inner.isEmpty then c :: removeTags cs
        else ' ' :: removeTags rest
      | none => c :: removeTags cs
    else c :: removeTags cs
termination_by l => l.length
decreasing_by
  · simp
  · have := splitAtGt_length_lt cs inner rest h
    simp at this ⊢
    omega
  · simp
  · simp

/-- Whitespace collapsing `/\s+/g` to a single space, as a single scan
carrying whether the previous character was whitespace. -/
def collapseWsAux (prevWs : Bool) : List Char → List Char
  | [] => []
  | c :: cs =>
    if c.isWhitespace then
      if prevWs then collapseWsAux true cs else ' ' :: collapseWsAux true cs
    else c :: collapseWsAux false cs

/-- Whitespace collapsing over a whole stream. -/
def collapseWs (l : List Char) : List Char := collapseWsAux false l

/-- Text extraction `extractTextFromHTML`: remove script blocks, then style
blocks, strip remaining tags to spaces, collapse whitespace, lowercase, trim. -/
def extractTextFromHTML (html : String) : String :=
  String.mk (trimWs ((collapseWs (removeTags
    (removeBlocks "<style".toList "</style>".toList
      (removeBlocks "<script".toList "</script>".toList html.toList)))).map Char.toLower))

/-- Outcome of fetching `/robots.txt`: the fetch can throw (network error or
5 s timeout) or return a response with a status; for a 2xx response the
body is handed to the external `robots-txt-parser` library, whose verdict
`robots.isAllowed` for user-agent SolarProvidersOnline and path `/` is
carried here as the `allowed` field (the parser library is an external
collaborator, not code of this repository). -/
inductive RobotsFetch where
  | failed
  | response (status : Nat) (allowed : Bool)
deriving DecidableEq, Repr

/-- Robots gate `checkRobotsTxt`: a thrown fetch and any non-2xx status
default to allowed; on a 2xx response the parsed policy verdict decides. -/
def checkRobotsTxt : RobotsFetch → Bool
  | .failed => true
  | .response status allowed =>
    if 200 ≤ status ∧ status < 300 then allowed else true

/-- Response of the homepage fetch: status line, content-type header (absent
headers read as null) and the body text. -/
structure PageResponse where
  status : Nat
  statusText : String
  contentType : Option String
  body : String
deriving DecidableEq, Repr

/-- Enrichment value (`EnrichmentResult` of part_008, minus the wall-clock
timestamp): detected specialty slugs, a success flag, an optional error. -/
structure EnrichOutcome where
  specialties : List String
  success : Bool
  error : Option String
deriving DecidableEq, Repr

/-- URL normalization step: prefix `https://` when no scheme is present. -/
def normalizeUrl (url : String) : String :=
  if strStartsWith url "http://" || strStartsWith url "https://" then url
  else "https://" ++ url

/-- Website crawler `enrichInstallerWebsite`, with the two network effects
passed as oracles: the robots.txt outcome and the homepage fetch outcome
(`none` models a thrown fetch).  Returns the enrichment value paired with
whether the homepage fetch was attempted at all. -/
def enrichInstallerWebsite (robots : RobotsFetch) (page : Option PageResponse)
    (websiteUrl : String) : EnrichOutcome × Bool :=
  if websiteUrl = "" then
    ({ specialties := [], success := false, error := some "No website URL provided" }, false)
  else
    if checkRobotsTxt robots = false then
      ({ specialties := [], success := false, error := some "Robots.txt disallows crawling" }, false)
    else
      match page with
      | none =>
        ({ specialties := [], success := false, error := some "fetch failed" }, true)
      | some r =>
        if ¬ (200 ≤ r.status ∧ r.status < 300) then
          ({ specialties := [], success := false,
             error := some ("HTTP " ++ toString r.status ++ ": " ++ r.statusText) }, true)
        else if ¬ includes (r.contentType.getD "") "text/html" then
          ({ specialties := [], success := false, error := some "Not an HTML page" }, true)
        else
          ({ specialties := detectSpecialties (extractTextFromHTML r.body)
             success := true, error := none }, true)

/-- Per-URL behaviour of the crawl as the batch loop sees it: either the
enrichment value returned by `enrichInstallerWebsite`, or an exception
escaping it (caught by the per-item `try`).  The loop body of
`enrichMultipleInstallers` converts the exception into a failed entry. -/
def crawlOutcome (crawl : String → Except String EnrichOutcome) (url : String) : EnrichOutcome :=
  match crawl url with
  | .ok r => r
  | .error e => { specialties := [], success := false, error := some e }

/-- JS `Map.prototype.set`: overwrite the value at an existing key in place,
else append the new entry. -/
def mapSet (m : List (String × EnrichOutcome)) (k : String) (v : EnrichOutcome) :
    List (String × EnrichOutcome) :=
  if m.any (fun p => p.1 == k) then
    m.map (fun p => if p.1 == k then (k, v) else p)
  else m ++ [(k, v)]

/-- Batch enrichment `enrichMultipleInstallers`: process every URL in order,
recording each outcome (converting a thrown error into a failed entry) and
never aborting the loop. -/
def enrichMultipleInstallers (crawl : String → Except String EnrichOutcome)
    (websiteUrls : List String) : List (String × EnrichOutcome) :=
  websiteUrls.foldl (fun results url => mapSet results url (crawlOutcome crawl url)) []

/-! Candidate reconciler and discovery run, from the POST handler of
src/src/app/api/stats/route.ts. -/

/-- Persisted installer record, restricted to the fields the reconciler
reads or writes (audit timestamps and the relation fields are tracked by
their own embeddings below). -/
structure Installer where
  osmId : Option String
  name : String
  lat : ℚ
  lon : ℚ
  address : Option String
  city : Option String
  state : Option String
  postal : Option String
  phone : Option String
  website : Option String
deriving DecidableEq, Repr

/-- Name-and-location clause of the reconciler lookup: case-insensitive name
equality with both coordinates within ±0.001 degrees (inclusive bounds, from
the gte/lte pairs in the query). -/
def nameLocMatches (c : InstallerCandidate) (r : Installer) : Bool :=
  strToLower r.name == strToLower c.name &&
  decide (c.lat - 1/1000 ≤ r.lat) && decide (r.lat ≤ c.lat + 1/1000) &&
  decide (c.lon - 1/1000 ≤ r.lon) && decide (r.lon ≤ c.lon + 1/1000)

/-- Reconciler lookup predicate: OR of the exact external-id clause and the
name-and-location clause. -/
def matchesCandidate (c : InstallerCandidate) (r : Installer) : Bool :=
  r.osmId == some c.osmId || nameLocMatches c r

/-- Record created for an unmatched candidate: every field taken from the
candidate, including its external source id. -/
def createInstaller (c : InstallerCandidate) : Installer :=
  { osmId := some c.osmId
    name := c.name
    lat := c.lat
    lon := c.lon
    address := c.address
    city := c.city
    state := c.state
    postal := c.postal
    phone := c.phone
    website := c.website }

/-- Update applied to a matched record.  The update data lists
`name`, `lat`, `lon`, `address`, `city`, `state`, `postal`, `phone`,
`website` from the candidate; an optional candidate field that is undefined
is skipped by the ORM (undefined means "leave unchanged"), so the stored
value is carried forward, and `osmId` is not part of the update at all. -/
def applyUpdate (r : Installer) (c : InstallerCandidate) : Installer :=
  { osmId := r.osmId
    name := c.name
    lat := c.lat
    lon := c.lon
    address := match c.address with | some a => some a | none => r.address
    city := match c.city with | some a => some a | none => r.city
    state := match c.state with | some a => some a | none => r.state
    postal := match c.postal with | some a => some a | none => r.postal
    phone := match c.phone with | some a => some a | none => r.phone
    website := match c.website with | some a => some a | none => r.website }

/-- Store update for one candidate: replace the first record matching the
lookup (the `findFirst` result) by its updated version, or report `none`
when no record matches. -/
def reconcileList (c : InstallerCandidate) : List Installer → Option (List Installer)
  | [] => none
  | r :: rs =>
    if matchesCandidate c r then some (applyUpdate r c :: rs)
    else (reconcileList c rs).map (fun s => r :: s)

/-- One iteration of the upsert loop: update the first matching record, else
append a newly created one.  The Bool reports whether a create happened. -/
def reconcileStep (store : List Installer) (c : InstallerCandidate) : List Installer × Bool :=
  match reconcileList c store with
  | some s => (s, false)
  | none => (store ++ [createInstaller c], true)

/-- Whole upsert loop of the discovery run over a candidate list. -/
def processRun (candidates : List InstallerCandidate) (store : List Installer) : List Installer :=
  candidates.foldl (fun s c => (reconcileStep s c).1) store

/-- Network call to an external service made during a discovery run. -/
inductive ExtCall where
  | geocode (query : String)
  | overpass (lat lon radiusMeters : ℚ)
deriving DecidableEq, Repr

/-- Parsed JSON body of the discovery POST request. -/
structure DiscoverBody where
  lat : Option ℚ
  lon : Option ℚ
  radiusMeters : Option ℚ
  location : Option String
deriving DecidableEq, Repr

/-- Response of the discovery POST handler. -/
inductive RouteResponse where
  | geocodeError
  | missingCoords
  | radiusTooLarge
  | ok (discovered processed : Nat)
  | serverError
deriving DecidableEq, Repr

/-- Result of a discovery run: the external calls made in order, the HTTP
response, and the store after the run. -/
structure RunResult where
  calls : List ExtCall
  response : RouteResponse
  store : List Installer
deriving Repr

/-- Tail of the discovery POST handler once search coordinates are fixed:
missing-coordinate check (JS truthiness, so 0 is missing), radius default
`radiusMeters || 25000`, radius validation, then the Overpass call and the
upsert loop.  `overpassOracle` gives the parsed elements of the Overpass
response, `none` modelling a network failure or non-2xx reply. -/
def discoverAfterCoords (overpassOracle : ℚ → ℚ → ℚ → Option (List OverpassElement))
    (store : List Installer) (body : DiscoverBody) (calls : List ExtCall)
    (searchLat searchLon : Option ℚ) : RunResult :=
  if ¬ (numTruthy searchLat = true ∧ numTruthy searchLon = true) then
    { calls := calls, response := .missingCoords, store := store }
  else
    let radius := jsOrQ body.radiusMeters 25000
    if radius > 50000 then
      { calls := calls, response := .radiusTooLarge, store := store }
    else
      let la := searchLat.getD 0
      let lo := searchLon.getD 0
      match overpassOracle la lo radius with
      | none =>
        { calls := calls ++ [.overpass la lo radius], response := .serverError, store := store }
      | some elements =>
        let candidates := discoverSolarInstallers elements
        let store1 := processRun candidates store
        { calls := calls ++ [.overpass la lo radius]
          response := .ok candidates.length candidates.length
          store := store1 }

/-- Discovery POST handler: geocode first when a location string is given
and the raw coordinates are not both truthy, then proceed as
`discoverAfterCoords`.  `geocoder` models the external Nominatim lookup. -/
def discoverRoute (geocoder : String → Option (ℚ × ℚ))
    (overpassOracle : ℚ → ℚ → ℚ → Option (List OverpassElement))
    (store : List Installer) (body : DiscoverBody) : RunResult :=
  match body.location with
  | some loc =>
    if ¬ (numTruthy body.lat = true) ∨ ¬ (numTruthy body.lon = true) then
      match geocoder loc with
      | none => { calls := [.geocode loc], response := .geocodeError, store := store }
      | some (la, lo) =>
        discoverAfterCoords overpassOracle store body [.geocode loc] (some la) (some lo)
    else discoverAfterCoords overpassOracle store body [] body.lat body.lon
  | none => discoverAfterCoords overpassOracle store body [] body.lat body.lon

/-- Append-only audit record written by the upsert loop (`scanLog.create`):
an OK or ERROR status plus the human-readable message. -/
structure ScanLogEntry where
  status : String
  message : String
deriving DecidableEq, Repr

/-- State threaded through the upsert loop of the discovery POST handler:
the persisted store, the `installers` array of successfully processed
records, and the scan-log entries written so far. -/
structure RunState where
  store : List Installer
  installers : List Installer
  logs : List ScanLogEntry
deriving DecidableEq, Repr

/-- Store update for one candidate that also returns the affected record
(the `installer` variable of the loop): the first matching record is
replaced by its updated version, or `none` when no record matches. -/
def reconcileListGet (c : InstallerCandidate) :
    List Installer → Option (List Installer × Installer)
  | [] => none
  | r :: rs =>
    if matchesCandidate c r then some (applyUpdate r c :: rs, applyUpdate r c)
    else (reconcileListGet c rs).map (fun p => (r :: p.1, p.2))

/-- One iteration of the upsert loop together with its per-candidate
`try`/`catch`: `dbFail c = true` models a store operation throwing while
processing candidate `c` — the catch writes an ERROR scan-log entry and the
loop continues, the candidate contributing nothing to the store or to the
`installers` array.  Otherwise the candidate is upserted (update the first
match, else create), pushed onto `installers`, and an OK entry is
written. -/
def processCandidateLogged (dbFail : InstallerCandidate → Bool)
    (st : RunState) (c : InstallerCandidate) : RunState :=
  if dbFail c then
    { st with logs := st.logs ++
        [⟨"ERROR", "Error processing " ++ c.name⟩] }
  else
    match reconcileListGet c st.store with
    | some (s, inst) =>
      { store := s
        installers := st.installers ++ [inst]
        logs := st.logs ++ [⟨"OK", "Processed installer: " ++ inst.name⟩] }
    | none =>
      { store := st.store ++ [createInstaller c]
        installers := st.installers ++ [createInstaller c]
        logs := st.logs ++ [⟨"OK", "Processed installer: " ++ c.name⟩] }

/-- Whole upsert loop of the discovery run with per-candidate failure
tolerance and result collection. -/
def processRunLogged (dbFail : InstallerCandidate → Bool)
    (candidates : List InstallerCandidate) (st : RunState) : RunState :=
  candidates.foldl (processCandidateLogged dbFail) st

/-! Specialty persistence: the enrichment route
src/src/app/api/enrich/[id]/route.ts and the pipeline of src/unnamed/part_007. -/

/-- Deduplication keeping the first occurrence, modelling `skipDuplicates`
of a bulk insert. -/
def dedupKeepFirst [DecidableEq α] : List α → List α
  | [] => []
  | x :: xs => x :: (dedupKeepFirst xs).filter (fun y => y ≠ x)

/-- Specialty vocabulary rows as read from the Specialty table: slug and
primary key. -/
structure SpecialtyRow where
  slug : String
  sid : Nat
deriving DecidableEq, Repr

/-- Slugs seeded into the Specialty table by the seed script of
src/unnamed/part_015: exactly the sixteen classifier categories. -/
def seededSpecialtySlugs : List String :=
  ["battery_backup", "ev_charger", "tile_roof", "metal_roof", "ground_mount",
   "off_grid", "microinverters", "commercial_pv", "residential_pv", "roofing",
   "storage_only", "solar_maintenance", "energy_audit", "financing", "permits",
   "monitoring"]

/-- Seeded vocabulary with distinct primary keys. -/
def seededVocab : List SpecialtyRow :=
  (seededSpecialtySlugs.enum).map (fun p => { slug := p.2, sid := p.1 })

/-- Specialty update of the enrichment route, acting on the installer's
join rows (specialty ids): `installerSpecialty.deleteMany` removes every
existing row, then the detected slugs are mapped through the vocabulary
(slugs without a Specialty row are dropped by the `filter(Boolean)`) and
bulk-inserted with `skipDuplicates`. -/
def routeApplySpecialties (vocab : List SpecialtyRow) (_existingJoins : List Nat)
    (detected : List String) : List Nat :=
  let specialtyMap := vocab.map (fun r => (r.slug, r.sid))
  dedupKeepFirst (detected.filterMap (fun slug => specialtyMap.lookup slug))

/-- Slug normalization of the pipeline update:
`specialty.toLowerCase().replace(/\s+/g, '-')`. -/
def slugify (s : String) : String :=
  String.mk ((collapseWs (s.toList.map Char.toLower)).map (fun c => if c = ' ' then '-' else c))

/-- Specialty update of `EnrichmentPipeline.enrichProvider` (part_007): when
the website enrichment produced a specialty array (any array, even empty,
is truthy) the update issues a nested `create` of one join row per detected
specialty through `connectOrCreate` on the slugified name — it only adds
join rows and never deletes the existing ones; with no website data the
specialties update is skipped entirely. -/
def pipelineApplySpecialties (existing : List String)
    (websiteSpecialties : Option (List String)) : List String :=
  match websiteSpecialties with
  | none => existing
  | some l => existing ++ l.map slugify

/-! Capacity estimator, from `CapacityEstimator.estimateCapacity` of
src/unnamed/part_007. -/

/-- Portfolio entry scraped from a website (`portfolio` items of the
website enrichment data); only the optional `systemSize` field matters to
the estimator. -/
structure PortfolioItem where
  systemSize : Option ℚ
deriving DecidableEq, Repr

/-- Provider fields the estimator reads, all possibly undefined. -/
structure ProviderInfo where
  yearsInBusiness : Option ℚ
  totalReviews : Option ℚ
  city : Option String
  specialties : Option (List String)
deriving DecidableEq, Repr

/-- Website enrichment data as the estimator sees it: the optional
portfolio array. -/
structure WebsiteData where
  portfolio : Option (List PortfolioItem)
deriving DecidableEq, Repr

/-- Estimator output. -/
structure CapacityEstimate where
  totalKw : ℚ
  projects : ℚ
  averageSystemSize : ℚ
  confidence : ℚ
deriving DecidableEq, Repr

/-- JS `Math.max` on two numbers. -/
def jsMax (a b : ℚ) : ℚ := if a ≤ b then b else a

/-- JS `Math.floor` on a number. -/
def jsFloor (q : ℚ) : ℚ := (q.floor : ℚ)

/-- JS `Math.round`, rounding halves towards positive infinity. -/
def jsRound (q : ℚ) : ℚ := ((q + 1/2).floor : ℚ)

/-- JS `Math.round(x * 100) / 100`, the two-decimal rounding the estimator
applies to its outputs. -/
def round2 (q : ℚ) : ℚ := jsRound (q * 100) / 100

/-- Commercial heuristic of the estimator:
`provider.city?.toLowerCase().includes('commercial') ||
provider.specialties?.some(s => s.toLowerCase().includes('commercial'))`. -/
def looksCommercial (provider : ProviderInfo) : Bool :=
  (match provider.city with
   | some city => includes (strToLower city) "commercial"
   | none => false) ||
  (match provider.specialties with
   | some l => l.any (fun s => includes (strToLower s) "commercial")
   | none => false)

/-- Capacity estimator `estimateCapacity`: portfolio-backed totals with
confidence 0.8 when at least one portfolio entry has a truthy system size;
otherwise the review/years heuristic
`max(10, floor(totalReviews / 2) + yearsInBusiness * 5)` with an 8 kW (or
50 kW commercial) average unit size and confidence 0.4; the initial 0.3
default survives only if neither branch assigns. -/
def estimateCapacity (provider : ProviderInfo) (websiteData : Option WebsiteData) :
    CapacityEstimate :=
  let start : ℚ × ℚ × ℚ := (0, 0, 3/10)
  let afterPortfolio : ℚ × ℚ × ℚ :=
    match websiteData with
    | some w =>
      match w.portfolio with
      | some portfolio =>
        let portfolioProjects := portfolio.filter (fun p => numTruthy p.systemSize)
        if portfolioProjects.length > 0 then
          ((portfolioProjects.map (fun p => p.systemSize.getD 0)).sum,
           (portfolioProjects.length : ℚ), 8/10)
        else start
      | none => start
    | none => start
  let totalKw0 := afterPortfolio.1
  let projects0 := afterPortfolio.2.1
  let confidence0 := afterPortfolio.2.2
  let final : ℚ × ℚ × ℚ :=
    if projects0 = 0 then
      let yearsInBusiness := jsOrQ provider.yearsInBusiness 5
      let totalReviews := jsOrQ provider.totalReviews 0
      let projects := jsMax 10 (jsFloor (totalReviews / 2) + yearsInBusiness * 5)
      let averageSystemSize : ℚ := if looksCommercial provider then 50 else 8
      (projects * averageSystemSize, projects, 4/10)
    else (totalKw0, projects0, confidence0)
  let totalKw := final.1
  let projects := final.2.1
  let confidence := final.2.2
  let averageSystemSize := if projects > 0 then totalKw / projects else 0
  { totalKw := round2 totalKw
    projects := projects
    averageSystemSize := round2 averageSystemSize
    confidence := round2 confidence }

/-! Helper lemmas shared by the claim theorems. -/

theorem includesL_iff_infix [DecidableEq α] (needle : List α) :
    ∀ haystack : List α, includesL needle haystack = true ↔ needle <:+: haystack := by
  intro haystack
  induction haystack with
  | nil =>
    simp [includesL, List.isEmpty_iff, List.infix_nil]
  | cons h t ih =>
    simp only [includesL, Bool.or_eq_true, List.infix_cons_iff, ih,
      List.isPrefixOf_iff_prefix]

theorem includes_iff_infix (text kw : String) :
    includes text kw = true ↔ kw.toList <:+: text.toList := by
  simp [includes, includesL_iff_infix]

theorem mem_dedupKeepFirst [DecidableEq α] (a : α) :
    ∀ l : List α, a ∈ dedupKeepFirst l ↔ a ∈ l := by
  intro l
  induction l with
  | nil => simp [dedupKeepFirst]
  | cons x xs ih =>
    simp only [dedupKeepFirst, List.mem_cons, List.mem_filter, ih, decide_eq_true_eq]
    constructor
    · rintro (rfl | ⟨hmem, _⟩)
      · exact Or.inl rfl
      · exact Or.inr hmem
    · rintro (rfl | hmem)
      · exact Or.inl rfl
      · by_cases hax : a = x
        · exact Or.inl hax
        · exact Or.inr ⟨hmem, hax⟩

theorem mem_routeApplySpecialties (vocab : List SpecialtyRow) (joins : List Nat)
    (detected : List String) (sid : Nat) :
    sid ∈ routeApplySpecialties vocab joins detected ↔
      ∃ slug ∈ detected, (vocab.map (fun r => (r.slug, r.sid))).lookup slug = some sid := by
  simp only [routeApplySpecialties, mem_dedupKeepFirst, List.mem_filterMap]

theorem applyUpdate_osmId (r : Installer) (c : InstallerCandidate) :
    (applyUpdate r c).osmId = r.osmId := rfl

theorem reconcileList_length (c : InstallerCandidate) :
    ∀ store s : List Installer, reconcileList c store = some s → s.length = store.length := by
  intro store
  induction store with
  | nil => intro s h; simp [reconcileList] at h
  | cons r rs ih =>
    intro s h
    simp only [reconcileList] at h
    split at h
    · have hs : s = applyUpdate r c :: rs := Option.some.inj h.symm
      subst hs; simp
    · match hx : reconcileList c rs with
      | none => rw [hx] at h; simp at h
      | some s0 =>
        rw [hx] at h
        simp at h
        subst h
        simp [ih s0 hx]

theorem reconcileList_osmId_mem (c : InstallerCandidate) :
    ∀ store s : List Installer, reconcileList c store = some s →
      ∀ o, (∃ r ∈ store, r.osmId = o) → ∃ r ∈ s, r.osmId = o := by
  intro store
  induction store with
  | nil => intro s h; simp [reconcileList] at h
  | cons r rs ih =>
    intro s h o hex
    simp only [reconcileList] at h
    split at h
    · have hs : s = applyUpdate r c :: rs := Option.some.inj h.symm
      subst hs
      obtain ⟨r0, hr0, ho⟩ := hex
      rcases List.mem_cons.mp hr0 with rfl | hmem
      · exact ⟨applyUpdate r0 c, List.mem_cons_self _ _, by rw [applyUpdate_osmId]; exact ho⟩
      · exact ⟨r0, List.mem_cons_of_mem _ hmem, ho⟩
    · match hx : reconcileList c rs with
      | none => rw [hx] at h; simp at h
      | some s0 =>
        rw [hx] at h
        simp at h
        subst h
        obtain ⟨r0, hr0, ho⟩ := hex
        rcases List.mem_cons.mp hr0 with rfl | hmem
        · exact ⟨r0, List.mem_cons_self _ _, ho⟩
        · obtain ⟨r1, hr1, ho1⟩ := ih s0 hx o ⟨r0, hmem, ho⟩
          exact ⟨r1, List.mem_cons_of_mem _ hr1, ho1⟩

theorem reconcileList_isSome_of_osmId (c : InstallerCandidate) :
    ∀ store : List Installer, (∃ r ∈ store, r.osmId = some c.osmId) →
      (reconcileList c store).isSome := by
  intro store
  induction store with
  | nil => intro h; simp at h
  | cons r rs ih =>
    intro hex
    simp only [reconcileList]
    split
    · simp
    · rename_i hmatch
      obtain ⟨r0, hr0, ho⟩ := hex
      rcases List.mem_cons.mp hr0 with rfl | hmem
      · exfalso
        apply hmatch
        simp [matchesCandidate, ho]
      · have := ih ⟨r0, hmem, ho⟩
        match hx : reconcileList c rs with
        | none => rw [hx] at this; simp at this
        | some s0 => simp [hx]

theorem processRun_length_of_osmIds :
    ∀ (candidates : List InstallerCandidate) (store : List Installer),
      (∀ c ∈ candidates, ∃ r ∈ store, r.osmId = some c.osmId) →
      (processRun candidates store).length = store.length := by
  intro candidates
  induction candidates with
  | nil => intro store _; rfl
  | cons c rest ih =>
    intro store h
    have hc := h c (List.mem_cons_self _ _)
    have hsome := reconcileList_isSome_of_osmId c store hc
    match hx : reconcileList c store with
    | none => rw [hx] at hsome; simp at hsome
    | some s =>
      have hstep : processRun (c :: rest) store = processRun rest s := by
        simp only [processRun, List.foldl_cons, reconcileStep, hx]
      rw [hstep]
      have hlen := reconcileList_length c store s hx
      have hrest : ∀ c2 ∈ rest, ∃ r ∈ s, r.osmId = some c2.osmId := by
        intro c2 hc2
        exact reconcileList_osmId_mem c store s hx _ (h c2 (List.mem_cons_of_mem _ hc2))
      rw [ih s hrest, hlen]

theorem discoverAfterCoords_radius_too_large
    (overpassOracle : ℚ → ℚ → ℚ → Option (List OverpassElement))
    (store : List Installer) (body : DiscoverBody) (calls : List ExtCall)
    (searchLat searchLon : Option ℚ)
    (h : jsOrQ body.radiusMeters 25000 > 50000) :
    ((discoverAfterCoords overpassOracle store body calls searchLat searchLon).response =
        RouteResponse.missingCoords ∨
     (discoverAfterCoords overpassOracle store body calls searchLat searchLon).response =
        RouteResponse.radiusTooLarge) ∧
    (discoverAfterCoords overpassOracle store body calls searchLat searchLon).calls = calls ∧
    (discoverAfterCoords overpassOracle store body calls searchLat searchLon).store = store := by
  rcases Decidable.em (numTruthy searchLat = true ∧ numTruthy searchLon = true) with hc | hc
  · have hval : discoverAfterCoords overpassOracle store body calls searchLat searchLon =
        { calls := calls, response := RouteResponse.radiusTooLarge, store := store } := by
      simp only [discoverAfterCoords]
      rw [if_neg (not_not_intro hc), if_pos h]
    rw [hval]
    exact ⟨Or.inr rfl, rfl, rfl⟩
  · have hval : discoverAfterCoords overpassOracle store body calls searchLat searchLon =
        { calls := calls, response := RouteResponse.missingCoords, store := store } := by
      simp only [discoverAfterCoords]
      rw [if_pos hc]
    rw [hval]
    exact ⟨Or.inl rfl, rfl, rfl⟩

theorem lookup_mapUpdate (k : String) (v : EnrichOutcome) :
    ∀ m : List (String × EnrichOutcome), m.any (fun p => p.1 == k) = true →
      (m.map (fun p => if p.1 == k then (k, v) else p)).lookup k = some v := by
  intro m
  induction m with
  | nil => intro h; simp at h
  | cons p t ih =>
    intro hany
    simp only [List.any_cons, Bool.or_eq_true] at hany
    by_cases hpk : p.1 = k
    · have hhead : (if p.1 == k then (k, v) else p) = (k, v) := by simp [hpk]
      simp only [List.map_cons]
      rw [hhead]
      simp only [List.lookup, beq_self_eq_true]
    · have hpk2 : (p.1 == k) = false := by simp [hpk]
      have hhead : (if p.1 == k then (k, v) else p) = p := by simp [hpk]
      rcases hany with h1 | h2
      · rw [hpk2] at h1; cases h1
      · have hk2 : (k == p.1) = false := by
          simp only [beq_eq_false_iff_ne, ne_eq]
          exact fun he => hpk he.symm
        simp only [List.map_cons]
        rw [hhead]
        simp only [List.lookup, hk2]
        exact ih h2

theorem lookup_append_single (k : String) (v : EnrichOutcome) :
    ∀ m : List (String × EnrichOutcome), m.any (fun p => p.1 == k) = false →
      (m ++ [(k, v)]).lookup k = some v := by
  intro m
  induction m with
  | nil => simp [List.lookup]
  | cons p t ih =>
    intro hany
    simp only [List.any_cons, Bool.or_eq_false_iff] at hany
    have hp1 : p.1 ≠ k := by simpa using hany.1
    have hk2 : (k == p.1) = false := by
      simp only [beq_eq_false_iff_ne, ne_eq]
      exact hp1.symm
    simp only [List.cons_append, List.lookup, hk2]
    exact ih hany.2

theorem lookup_mapSet_self (k : String) (v : EnrichOutcome)
    (m : List (String × EnrichOutcome)) : (mapSet m k v).lookup k = some v := by
  unfold mapSet
  by_cases hany : m.any (fun p => p.1 == k) = true
  · rw [if_pos hany]
    exact lookup_mapUpdate k v m hany
  · rw [if_neg hany]
    have hf : m.any (fun p => p.1 == k) = false := by
      cases h : m.any (fun p => p.1 == k) with
      | true => exact absurd h hany
      | false => rfl
    exact lookup_append_single k v m hf

theorem lookup_mapSet_ne (k k2 : String) (hne : k2 ≠ k) (v : EnrichOutcome) :
    ∀ m : List (String × EnrichOutcome), (mapSet m k v).lookup k2 = m.lookup k2 := by
  intro m
  have hmap : ∀ t : List (String × EnrichOutcome),
      (t.map (fun p => if p.1 == k then (k, v) else p)).lookup k2 = t.lookup k2 := by
    intro t
    induction t with
    | nil => rfl
    | cons p t0 ih =>
      by_cases hpk : p.1 = k
      · have hhead : (if p.1 == k then (k, v) else p) = (k, v) := by simp [hpk]
        have hk2 : (k2 == p.1) = false := by
          simp only [beq_eq_false_iff_ne, ne_eq]
          intro he
          exact hne (he.trans hpk)
        have hk3 : (k2 == k) = false := by
          simp only [beq_eq_false_iff_ne, ne_eq]
          exact hne
        simp only [List.map_cons]
        rw [hhead]
        simp only [List.lookup, hk2, hk3]
        exact ih
      · have hhead : (if p.1 == k then (k, v) else p) = p := by simp [hpk]
        simp only [List.map_cons]
        rw [hhead]
        simp only [List.lookup]
        cases k2 == p.1
        · exact ih
        · rfl
  have happ : (m ++ [(k, v)]).lookup k2 = m.lookup k2 := by
    induction m with
    | nil =>
      have hk3 : (k2 == k) = false := by
        simp only [beq_eq_false_iff_ne, ne_eq]
        exact hne
      simp [List.lookup, hk3]
    | cons p t0 ih =>
      simp only [List.cons_append, List.lookup]
      cases k2 == p.1
      · exact ih
      · rfl
  unfold mapSet
  by_cases hany : m.any (fun p => p.1 == k) = true
  · rw [if_pos hany]
    exact hmap m
  · rw [if_neg hany]
    exact happ

theorem enrich_foldl_untouched (crawl : String → Except String EnrichOutcome) (k : String) :
    ∀ (urls : List String) (acc : List (String × EnrichOutcome)), k ∉ urls →
      (urls.foldl (fun results url => mapSet results url (crawlOutcome crawl url)) acc).lookup k =
        acc.lookup k := by
  intro urls
  induction urls with
  | nil => intro acc _; rfl
  | cons u rest ih =>
    intro acc hk
    have hku : k ≠ u := fun he => hk (he ▸ List.mem_cons_self _ _)
    have hkr : k ∉ rest := fun hm => hk (List.mem_cons_of_mem _ hm)
    simp only [List.foldl_cons]
    rw [ih _ hkr, lookup_mapSet_ne u k hku _ acc]

theorem enrich_foldl_lookup (crawl : String → Except String EnrichOutcome) :
    ∀ (urls : List String) (acc : List (String × EnrichOutcome)) (k : String), k ∈ urls →
      (urls.foldl (fun results url => mapSet results url (crawlOutcome crawl url)) acc).lookup k =
        some (crawlOutcome crawl k) := by
  intro urls
  induction urls with
  | nil => intro acc k h; simp at h
  | cons u rest ih =>
    intro acc k hk
    simp only [List.foldl_cons]
    by_cases hkr : k ∈ rest
    · exact ih _ k hkr
    · have hku : k = u := by
        rcases List.mem_cons.mp hk with h | h
        · exact h
        · exact absurd h hkr
      subst hku
      rw [enrich_foldl_untouched crawl k rest _ hkr, lookup_mapSet_self]

theorem reconcileListGet_fst (c : InstallerCandidate) :
    ∀ store : List Installer,
      (reconcileListGet c store).map Prod.fst = reconcileList c store := by
  intro store
  induction store with
  | nil => rfl
  | cons r rs ih =>
    simp only [reconcileListGet, reconcileList]
    split
    · rfl
    · rw [← ih]
      cases reconcileListGet c rs <;> rfl

theorem processCandidateLogged_store_ok (dbFail : InstallerCandidate → Bool)
    (st : RunState) (c : InstallerCandidate) (hf : dbFail c = false) :
    (processCandidateLogged dbFail st c).store = (reconcileStep st.store c).1 := by
  simp only [processCandidateLogged, hf, Bool.false_eq_true, if_false, reconcileStep]
  cases hx : reconcileListGet c st.store with
  | none =>
    have hrl : reconcileList c st.store = none := by
      rw [← reconcileListGet_fst, hx]
      rfl
    rw [hrl]
  | some p =>
    have hrl : reconcileList c st.store = some p.1 := by
      rw [← reconcileListGet_fst, hx]
      rfl
    rw [hrl]

theorem processRunLogged_statuses (dbFail : InstallerCandidate → Bool) :
    ∀ (candidates : List InstallerCandidate) (st : RunState),
      (processRunLogged dbFail candidates st).logs.map ScanLogEntry.status =
        st.logs.map ScanLogEntry.status ++
          candidates.map (fun c => if dbFail c then "ERROR" else "OK") := by
  intro candidates
  induction candidates with
  | nil => intro st; simp [processRunLogged]
  | cons c rest ih =>
    intro st
    have hstep : (processCandidateLogged dbFail st c).logs.map ScanLogEntry.status =
        st.logs.map ScanLogEntry.status ++ [if dbFail c then "ERROR" else "OK"] := by
      by_cases hf : dbFail c = true
      · simp [processCandidateLogged, hf]
      · have hf2 : dbFail c = false := by
          cases h : dbFail c with
          | true => exact absurd h hf
          | false => rfl
        simp only [processCandidateLogged, hf2, Bool.false_eq_true, if_false]
        cases hx : reconcileListGet c st.store <;> simp [hf2]
    have hrun : processRunLogged dbFail (c :: rest) st =
        processRunLogged dbFail rest (processCandidateLogged dbFail st c) := rfl
    rw [hrun, ih, hstep, List.append_assoc]
    simp

theorem processRunLogged_store (dbFail : InstallerCandidate → Bool) :
    ∀ (candidates : List InstallerCandidate) (st : RunState),
      (processRunLogged dbFail candidates st).store =
        processRun (candidates.filter (fun c => !dbFail c)) st.store := by
  intro candidates
  induction candidates with
  | nil => intro st; rfl
  | cons c rest ih =>
    intro st
    have hrun : processRunLogged dbFail (c :: rest) st =
        processRunLogged dbFail rest (processCandidateLogged dbFail st c) := rfl
    by_cases hf : dbFail c = true
    · have hfilter : (c :: rest).filter (fun c => !dbFail c) =
          rest.filter (fun c => !dbFail c) := by
        simp [List.filter_cons, hf]
      have hstore : (processCandidateLogged dbFail st c).store = st.store := by
        simp [processCandidateLogged, hf]
      rw [hrun, ih, hstore, hfilter]
    · have hf2 : dbFail c = false := by
        cases h : dbFail c with
        | true => exact absurd h hf
        | false => rfl
      have hfilter : (c :: rest).filter (fun c => !dbFail c) =
          c :: rest.filter (fun c => !dbFail c) := by
        simp [List.filter_cons, hf2]
      rw [hrun, ih, processCandidateLogged_store_ok dbFail st c hf2, hfilter]
      rfl

theorem processRunLogged_installers (dbFail : InstallerCandidate → Bool) :
    ∀ (candidates : List InstallerCandidate) (st : RunState),
      (processRunLogged dbFail candidates st).installers.length =
        st.installers.length + (candidates.filter (fun c => !dbFail c)).length := by
  intro candidates
  induction candidates with
  | nil => intro st; rfl
  | cons c rest ih =>
    intro st
    have hrun : processRunLogged dbFail (c :: rest) st =
        processRunLogged dbFail rest (processCandidateLogged dbFail st c) := rfl
    by_cases hf : dbFail c = true
    · have hfilter : (c :: rest).filter (fun c => !dbFail c) =
          rest.filter (fun c => !dbFail c) := by
        simp [List.filter_cons, hf]
      have hinst : (processCandidateLogged dbFail st c).installers = st.installers := by
        simp [processCandidateLogged, hf]
      rw [hrun, ih, hinst, hfilter]
    · have hf2 : dbFail c = false := by
        cases h : dbFail c with
        | true => exact absurd h hf
        | false => rfl
      have hfilter : (c :: rest).filter (fun c => !dbFail c) =
          c :: rest.filter (fun c => !dbFail c) := by
        simp [List.filter_cons, hf2]
      have hinst : (processCandidateLogged dbFail st c).installers.length =
          st.installers.length + 1 := by
        simp only [processCandidateLogged, hf2, Bool.false_eq_true, if_false]
        cases hx : reconcileListGet c st.store <;> simp
      rw [hrun, ih, hinst, hfilter]
      simp only [List.length_cons]
      omega

/-! Claim theorems. -/

/-- Claim C2 (code_bug): the discovery fetch does not carry the constructed
Overpass query.  `rateLimitedFetch` declares a single `url` parameter, so
the options object passed at the call site (method POST, the query as body)
is discarded by JavaScript, and the request that goes out is a GET with no
body for every center and radius — the multi-clause OR query built by
`overpassQuery` is never sent. -/
theorem overpass_query_not_sent (lat lon radiusMeters : ℚ) :
    (discoverFetchRequest lat lon radiusMeters).method = "GET" ∧
    (discoverFetchRequest lat lon radiusMeters).body = none ∧
    (discoverFetchRequest lat lon radiusMeters).body ≠
      some (overpassQuery radiusMeters lat lon) := by
  refine ⟨rfl, rfl, ?_⟩
  simp [discoverFetchRequest, rateLimitedFetchRequest]

/-- Claim C4 (corrected, counterexample): with no portfolio evidence,
totalReviews = 20 and yearsInBusiness = 4 the estimator returns
max(10, floor(20/2) + 4·5) = 30 projects, not 20 as the claim computes; and
with no evidence at all the heuristic branch still runs and assigns
confidence 0.4, so 0.3 is not returned. -/
theorem capacity_estimate_counterexample :
    (estimateCapacity ⟨some 4, some 20, none, none⟩ none).projects ≠ 20 ∧
    (estimateCapacity ⟨none, none, none, none⟩ none).confidence ≠ 3/10 := by
  constructor <;> decide

/-- Claim C4 (corrected, amended): with no portfolio evidence,
totalReviews = 20 and yearsInBusiness = 4 the estimator returns 30 projects
(max(10, 10 + 20) = 30) with confidence 0.4; with no evidence at all the
defaults yearsInBusiness = 5 and totalReviews = 0 give max(10, 0 + 25) = 25
projects, again with confidence 0.4 — the 0.3 initial value is always
overwritten whenever the portfolio branch does not fire. -/
theorem capacity_estimate_values :
    (estimateCapacity ⟨some 4, some 20, none, none⟩ none).projects = 30 ∧
    (estimateCapacity ⟨some 4, some 20, none, none⟩ none).confidence = 2/5 ∧
    (estimateCapacity ⟨none, none, none, none⟩ none).projects = 25 ∧
    (estimateCapacity ⟨none, none, none, none⟩ none).confidence = 2/5 := by
  refine ⟨?_, ?_, ?_, ?_⟩ <;> decide

/-- Claim C1 (corrected, counterexample): enrichment through
`EnrichmentPipeline.enrichProvider` does not replace the specialty set.  A
successful website enrichment that detects no specialties (an empty, still
truthy, array) leaves a previously stored `battery_backup` tag in place, so
afterwards the tag set is not the detected set. -/
theorem enrich_replace_counterexample :
    pipelineApplySpecialties ["battery_backup"] (some []) = ["battery_backup"] ∧
    pipelineApplySpecialties ["battery_backup"] (some []) ≠ [] := by
  constructor <;> decide

/-- Claim C1 (corrected, amended): the enrichment API route performs a full
replace — after `deleteMany` + `createMany` the join rows depend only on the
detected slugs and the Specialty vocabulary (a row is present exactly for a
detected slug found in the vocabulary), independently of the previous tag
set — while the `EnrichmentPipeline.enrichProvider` path only adds the
detected (slugified) specialties and keeps every pre-existing tag. -/
theorem enrich_route_replaces_pipeline_merges :
    (∀ (vocab : List SpecialtyRow) (joins joins2 : List Nat) (detected : List String),
      routeApplySpecialties vocab joins detected = routeApplySpecialties vocab joins2 detected) ∧
    (∀ (vocab : List SpecialtyRow) (joins : List Nat) (detected : List String) (sid : Nat),
      sid ∈ routeApplySpecialties vocab joins detected ↔
        ∃ slug ∈ detected, (vocab.map (fun r => (r.slug, r.sid))).lookup slug = some sid) ∧
    (∀ (existing detected : List String) (s : String),
      s ∈ existing → s ∈ pipelineApplySpecialties existing (some detected)) := by
  refine ⟨fun _ _ _ _ => rfl, mem_routeApplySpecialties, ?_⟩
  intro existing detected s hs
  simp [pipelineApplySpecialties]
  exact Or.inl hs

/-- Witness for C1: instantiates the amended theorem — with the seeded
vocabulary, detecting `battery_backup` (sid 0) against any previous joins
yields exactly that row, and the pipeline path keeps the pre-existing
`residential_pv` tag. -/
theorem enrich_route_replaces_pipeline_merges_witness :
    routeApplySpecialties seededVocab [3, 4] ["battery_backup"] =
      routeApplySpecialties seededVocab [] ["battery_backup"] ∧
    (0 ∈ routeApplySpecialties seededVocab [3, 4] ["battery_backup"] ↔
      ∃ slug ∈ ["battery_backup"],
        (seededVocab.map (fun r => (r.slug, r.sid))).lookup slug = some 0) ∧
    "residential_pv" ∈ pipelineApplySpecialties ["residential_pv"] (some ["Battery Backup"]) := by
  exact ⟨enrich_route_replaces_pipeline_merges.1 seededVocab [3, 4] [] ["battery_backup"],
    enrich_route_replaces_pipeline_merges.2.1 seededVocab [3, 4] ["battery_backup"] 0,
    enrich_route_replaces_pipeline_merges.2.2 ["residential_pv"] ["Battery Backup"]
      "residential_pv" (by decide)⟩

/-- Claim C3 (corrected, counterexample): a discovery run keyed by a
location string with radius 60000 m does make a network call before
failing — the geocoding request goes out first, and only then is the radius
rejected.  The run ends with the radius error, but its call trace already
contains the geocode call. -/
theorem radius_check_after_geocode_counterexample :
    (discoverRoute (fun _ => some (36, -119)) (fun _ _ _ => some []) []
        ⟨none, none, some 60000, some "Fresno, CA"⟩).response =
      RouteResponse.radiusTooLarge ∧
    (discoverRoute (fun _ => some (36, -119)) (fun _ _ _ => some []) []
        ⟨none, none, some 60000, some "Fresno, CA"⟩).calls =
      [ExtCall.geocode "Fresno, CA"] := by
  constructor <;> decide

/-- Claim C3 (corrected, amended): every discovery run with an effective
radius above 50000 m fails with a configuration error (could-not-geocode,
missing-coordinates, or radius-too-large) before any call to the discovery
service is made and without touching the store; when the run is keyed by
raw coordinates (no location string) it fails before any external call at
all, but a location-keyed run issues the geocoding call before the radius
is validated. -/
theorem radius_validation_amended (geocoder : String → Option (ℚ × ℚ))
    (overpassOracle : ℚ → ℚ → ℚ → Option (List OverpassElement))
    (store : List Installer) (body : DiscoverBody)
    (h : jsOrQ body.radiusMeters 25000 > 50000) :
    ((discoverRoute geocoder overpassOracle store body).response = RouteResponse.geocodeError ∨
     (discoverRoute geocoder overpassOracle store body).response = RouteResponse.missingCoords ∨
     (discoverRoute geocoder overpassOracle store body).response = RouteResponse.radiusTooLarge) ∧
    (∀ la lo r, ExtCall.overpass la lo r ∉ (discoverRoute geocoder overpassOracle store body).calls) ∧
    (discoverRoute geocoder overpassOracle store body).store = store ∧
    (body.location = none → (discoverRoute geocoder overpassOracle store body).calls = []) := by
  obtain ⟨blat, blon, brad, bloc⟩ := body
  rcases bloc with _ | loc
  · have hroute : discoverRoute geocoder overpassOracle store ⟨blat, blon, brad, none⟩ =
        discoverAfterCoords overpassOracle store ⟨blat, blon, brad, none⟩ [] blat blon := rfl
    rw [hroute]
    have key := discoverAfterCoords_radius_too_large overpassOracle store
      ⟨blat, blon, brad, none⟩ [] blat blon h
    refine ⟨?_, ?_, key.2.2, fun _ => key.2.1⟩
    · rcases key.1 with h1 | h1
      · exact Or.inr (Or.inl h1)
      · exact Or.inr (Or.inr h1)
    · intro la lo r hmem
      rw [key.2.1] at hmem
      simp at hmem
  · rcases Decidable.em (¬ numTruthy blat = true ∨ ¬ numTruthy blon = true) with hc | hc
    · rcases hg : geocoder loc with _ | ⟨la0, lo0⟩
      · have hroute : discoverRoute geocoder overpassOracle store ⟨blat, blon, brad, some loc⟩ =
            { calls := [ExtCall.geocode loc], response := RouteResponse.geocodeError,
              store := store } := by
          simp only [discoverRoute]
          rw [if_pos hc, hg]
        rw [hroute]
        exact ⟨Or.inl rfl, by intro la lo r hmem; simp at hmem, rfl, fun hn => by simp at hn⟩
      · have hroute : discoverRoute geocoder overpassOracle store ⟨blat, blon, brad, some loc⟩ =
            discoverAfterCoords overpassOracle store ⟨blat, blon, brad, some loc⟩
              [ExtCall.geocode loc] (some la0) (some lo0) := by
          simp only [discoverRoute]
          rw [if_pos hc, hg]
        rw [hroute]
        have key := discoverAfterCoords_radius_too_large overpassOracle store
          ⟨blat, blon, brad, some loc⟩ [ExtCall.geocode loc] (some la0) (some lo0) h
        refine ⟨?_, ?_, key.2.2, fun hn => by simp at hn⟩
        · rcases key.1 with h1 | h1
          · exact Or.inr (Or.inl h1)
          · exact Or.inr (Or.inr h1)
        · intro la lo r hmem
          rw [key.2.1] at hmem
          simp at hmem
    · have hroute : discoverRoute geocoder overpassOracle store ⟨blat, blon, brad, some loc⟩ =
          discoverAfterCoords overpassOracle store ⟨blat, blon, brad, some loc⟩ [] blat blon := by
        simp only [discoverRoute]
        rw [if_neg hc]
      rw [hroute]
      have key := discoverAfterCoords_radius_too_large overpassOracle store
        ⟨blat, blon, brad, some loc⟩ [] blat blon h
      refine ⟨?_, ?_, key.2.2, fun hn => by simp at hn⟩
      · rcases key.1 with h1 | h1
        · exact Or.inr (Or.inl h1)
        · exact Or.inr (Or.inr h1)
      · intro la lo r hmem
        rw [key.2.1] at hmem
        simp at hmem

/-- Witness for C3: a coordinate-keyed run with radius 60000 m is rejected
as radius-too-large with an empty call trace and an unchanged store. -/
theorem radius_validation_amended_witness :
    ((discoverRoute (fun _ => none) (fun _ _ _ => some []) []
        ⟨some 36, some (-119), some 60000, none⟩).response = RouteResponse.geocodeError ∨
     (discoverRoute (fun _ => none) (fun _ _ _ => some []) []
        ⟨some 36, some (-119), some 60000, none⟩).response = RouteResponse.missingCoords ∨
     (discoverRoute (fun _ => none) (fun _ _ _ => some []) []
        ⟨some 36, some (-119), some 60000, none⟩).response = RouteResponse.radiusTooLarge) ∧
    (∀ la lo r, ExtCall.overpass la lo r ∉
      (discoverRoute (fun _ => none) (fun _ _ _ => some []) []
        ⟨some 36, some (-119), some 60000, none⟩).calls) ∧
    (discoverRoute (fun _ => none) (fun _ _ _ => some []) []
        ⟨some 36, some (-119), some 60000, none⟩).store = [] ∧
    ((⟨some 36, some (-119), some 60000, none⟩ : DiscoverBody).location = none →
      (discoverRoute (fun _ => none) (fun _ _ _ => some []) []
        ⟨some 36, some (-119), some 60000, none⟩).calls = []) := by
  exact radius_validation_amended (fun _ => none) (fun _ _ _ => some []) []
    ⟨some 36, some (-119), some 60000, none⟩ (by decide)

/-- Claim C5 (corrected, counterexample): reconciliation is not idempotent.
Three candidates sharing a name, 0.001° apart pairwise (so all survive the
strict-inequality discovery dedup), chain-update a pre-existing same-name
record: each match moves its coordinates another 0.001°, ending 0.003° from
the first candidate.  On the second run the first candidate no longer
matches anything — its external id was never stored — and a new installer is
created: count 2 after the second run versus 1 after the first. -/
theorem reconcile_idempotence_counterexample :
    (dedupCandidates
      [⟨"node/1", "Solar", 1/1000, 0, none, none, none, none, none, none⟩,
       ⟨"node/2", "Solar", 2/1000, 0, none, none, none, none, none, none⟩,
       ⟨"node/3", "Solar", 3/1000, 0, none, none, none, none, none, none⟩] =
      [⟨"node/1", "Solar", 1/1000, 0, none, none, none, none, none, none⟩,
       ⟨"node/2", "Solar", 2/1000, 0, none, none, none, none, none, none⟩,
       ⟨"node/3", "Solar", 3/1000, 0, none, none, none, none, none, none⟩]) ∧
    (processRun
      [⟨"node/1", "Solar", 1/1000, 0, none, none, none, none, none, none⟩,
       ⟨"node/2", "Solar", 2/1000, 0, none, none, none, none, none, none⟩,
       ⟨"node/3", "Solar", 3/1000, 0, none, none, none, none, none, none⟩]
      [⟨some "node/999", "solar", 0, 0, none, none, none, none, none, none⟩]).length = 1 ∧
    (processRun
      [⟨"node/1", "Solar", 1/1000, 0, none, none, none, none, none, none⟩,
       ⟨"node/2", "Solar", 2/1000, 0, none, none, none, none, none, none⟩,
       ⟨"node/3", "Solar", 3/1000, 0, none, none, none, none, none, none⟩]
      (processRun
        [⟨"node/1", "Solar", 1/1000, 0, none, none, none, none, none, none⟩,
         ⟨"node/2", "Solar", 2/1000, 0, none, none, none, none, none, none⟩,
         ⟨"node/3", "Solar", 3/1000, 0, none, none, none, none, none, none⟩]
        [⟨some "node/999", "solar", 0, 0, none, none, none, none, none, none⟩])).length = 2 := by
  refine ⟨?_, ?_, ?_⟩ <;> decide

/-- Claim C5 (corrected, amended): reconciliation never re-creates a record
it can still identify by external source id: whenever every candidate's
external id is already present in the store — as is the case after a first
run in which every candidate created its record, since a created record
carries the candidate's id and updates never change stored ids — a further
identical run performs only updates and leaves the installer count
unchanged.  (A candidate that matched a pre-existing record only by
name+location has no stored id, and coordinate drift from later candidates
can orphan it, as the counterexample shows.) -/
theorem reconcile_idempotent_amended (candidates : List InstallerCandidate)
    (store : List Installer)
    (h : ∀ c ∈ candidates, ∃ r ∈ store, r.osmId = some c.osmId) :
    (processRun candidates store).length = store.length ∧
    (∀ c : InstallerCandidate, (createInstaller c).osmId = some c.osmId) ∧
    (∀ r : Installer, ∀ c : InstallerCandidate, (applyUpdate r c).osmId = r.osmId) := by
  exact ⟨processRun_length_of_osmIds candidates store h, fun _ => rfl, fun _ _ => rfl⟩

/-- Witness for C5: a store already holding the candidate's external id is
left at the same count by a re-run. -/
theorem reconcile_idempotent_amended_witness :
    (processRun [⟨"node/1", "Acme Solar", 36, -119, none, none, none, none, none, none⟩]
      [⟨some "node/1", "Acme Solar", 36, -119, none, none, none, none, none, none⟩]).length =
    ([⟨some "node/1", "Acme Solar", 36, -119, none, none, none, none, none, none⟩] :
      List Installer).length := by
  exact (reconcile_idempotent_amended
    [⟨"node/1", "Acme Solar", 36, -119, none, none, none, none, none, none⟩]
    [⟨some "node/1", "Acme Solar", 36, -119, none, none, none, none, none, none⟩]
    (by decide)).1

/-- Claim C7 (confirmed): neither half of a run aborts on a per-item
failure.  Crawl half: for every crawl behaviour and URL list, each URL ends
up with its own entry in the returned map — its crawl result when the crawl
returns one, or a failure entry carrying the error when the crawl for that
URL throws — independently of the other URLs.  Reconciliation half: for
every per-candidate failure behaviour of the store, the upsert loop writes
exactly one scan-log entry per candidate (ERROR for the failing ones, OK
for the rest, in order), the store ends as if only the non-failing
candidates had been reconciled, and the returned `installers` array has one
entry per non-failing candidate. -/
theorem batch_enrichment_partial_failure (crawl : String → Except String EnrichOutcome)
    (urls : List String) (dbFail : InstallerCandidate → Bool)
    (candidates : List InstallerCandidate) (st : RunState) :
    (∀ url ∈ urls,
      (enrichMultipleInstallers crawl urls).lookup url = some (crawlOutcome crawl url)) ∧
    (∀ url e, url ∈ urls → crawl url = .error e →
      (enrichMultipleInstallers crawl urls).lookup url =
        some { specialties := [], success := false, error := some e }) ∧
    (∀ url r, url ∈ urls → crawl url = .ok r →
      (enrichMultipleInstallers crawl urls).lookup url = some r) ∧
    ((processRunLogged dbFail candidates st).logs.map ScanLogEntry.status =
      st.logs.map ScanLogEntry.status ++
        candidates.map (fun c => if dbFail c then "ERROR" else "OK")) ∧
    ((processRunLogged dbFail candidates st).store =
      processRun (candidates.filter (fun c => !dbFail c)) st.store) ∧
    ((processRunLogged dbFail candidates st).installers.length =
      st.installers.length + (candidates.filter (fun c => !dbFail c)).length) := by
  have hmain : ∀ url ∈ urls,
      (enrichMultipleInstallers crawl urls).lookup url = some (crawlOutcome crawl url) :=
    fun url hu => enrich_foldl_lookup crawl urls [] url hu
  refine ⟨hmain, ?_, ?_, processRunLogged_statuses dbFail candidates st,
    processRunLogged_store dbFail candidates st,
    processRunLogged_installers dbFail candidates st⟩
  · intro url e hu he
    have := hmain url hu
    rwa [show crawlOutcome crawl url =
      { specialties := [], success := false, error := some e } by
        simp [crawlOutcome, he]] at this
  · intro url r hu hr
    have := hmain url hu
    rwa [show crawlOutcome crawl url = r by simp [crawlOutcome, hr]] at this

/-- Witness for C7: in a batch of five URLs whose crawl fails only for the
third one, the third URL gets a failure entry and the second URL still gets
its specialty result; and in a reconcile batch of five candidates whose
store fails only on the third, the scan log reads OK, OK, ERROR, OK, OK. -/
theorem batch_enrichment_partial_failure_witness :
    (enrichMultipleInstallers
      (fun u => if u = "https://c.example" then Except.error "fetch failed"
                else Except.ok { specialties := ["residential_pv"], success := true, error := none })
      ["https://a.example", "https://b.example", "https://c.example",
       "https://d.example", "https://e.example"]).lookup "https://c.example" =
      some { specialties := [], success := false, error := some "fetch failed" } ∧
    (enrichMultipleInstallers
      (fun u => if u = "https://c.example" then Except.error "fetch failed"
                else Except.ok { specialties := ["residential_pv"], success := true, error := none })
      ["https://a.example", "https://b.example", "https://c.example",
       "https://d.example", "https://e.example"]).lookup "https://b.example" =
      some { specialties := ["residential_pv"], success := true, error := none } ∧
    (processRunLogged (fun c => c.osmId == "node/3")
      [⟨"node/1", "A", 1, 0, none, none, none, none, none, none⟩,
       ⟨"node/2", "B", 2, 0, none, none, none, none, none, none⟩,
       ⟨"node/3", "C", 3, 0, none, none, none, none, none, none⟩,
       ⟨"node/4", "D", 4, 0, none, none, none, none, none, none⟩,
       ⟨"node/5", "E", 5, 0, none, none, none, none, none, none⟩]
      ⟨[], [], []⟩).logs.map ScanLogEntry.status = ["OK", "OK", "ERROR", "OK", "OK"] := by
  refine ⟨?_, ?_, ?_⟩
  · exact (batch_enrichment_partial_failure _ _ (fun _ => false) [] ⟨[], [], []⟩).2.1
      "https://c.example" "fetch failed" (by decide) (by simp)
  · exact (batch_enrichment_partial_failure _ _ (fun _ => false) [] ⟨[], [], []⟩).2.2.1
      "https://b.example"
      { specialties := ["residential_pv"], success := true, error := none }
      (by decide) (by simp)
  · exact ((batch_enrichment_partial_failure
      (fun _ => Except.ok { specialties := [], success := true, error := none }) []
      (fun c => c.osmId == "node/3")
      [⟨"node/1", "A", 1, 0, none, none, none, none, none, none⟩,
       ⟨"node/2", "B", 2, 0, none, none, none, none, none, none⟩,
       ⟨"node/3", "C", 3, 0, none, none, none, none, none, none⟩,
       ⟨"node/4", "D", 4, 0, none, none, none, none, none, none⟩,
       ⟨"node/5", "E", 5, 0, none, none, none, none, none, none⟩]
      ⟨[], [], []⟩).2.2.2.1).trans (by decide)

/-- Claim C8 (confirmed): a failed or non-2xx robots.txt fetch defaults to
allowed and the crawler proceeds to fetch the homepage; only a parsed
policy that disallows the crawler makes the result the "not permitted"
failure, in which case the homepage is never fetched — and conversely, a
crawl (of a nonempty URL) that skipped the homepage fetch did so only
because the policy denied it. -/
theorem robots_policy_gate (robots : RobotsFetch) (page : Option PageResponse)
    (url : String) (hurl : url ≠ "") :
    (robots = RobotsFetch.failed → checkRobotsTxt robots = true ∧
      (enrichInstallerWebsite robots page url).2 = true) ∧
    (∀ s a, robots = RobotsFetch.response s a → ¬ (200 ≤ s ∧ s < 300) →
      checkRobotsTxt robots = true ∧ (enrichInstallerWebsite robots page url).2 = true) ∧
    (checkRobotsTxt robots = false →
      (enrichInstallerWebsite robots page url).1.error = some "Robots.txt disallows crawling" ∧
      (enrichInstallerWebsite robots page url).1.success = false ∧
      (enrichInstallerWebsite robots page url).2 = false) ∧
    ((enrichInstallerWebsite robots page url).2 = false → checkRobotsTxt robots = false) := by
  have hbody : checkRobotsTxt robots = true → (enrichInstallerWebsite robots page url).2 = true := by
    intro hr
    simp only [enrichInstallerWebsite, if_neg hurl]
    rw [if_neg (by simp [hr])]
    cases page with
    | none => rfl
    | some r =>
      simp only []
      split
      · rfl
      · split
        · rfl
        · rfl
  refine ⟨?_, ?_, ?_, ?_⟩
  · intro hfail
    have hr : checkRobotsTxt robots = true := by rw [hfail]; rfl
    exact ⟨hr, hbody hr⟩
  · intro s a hresp hnot
    have hr : checkRobotsTxt robots = true := by
      rw [hresp]
      simp [checkRobotsTxt, hnot]
    exact ⟨hr, hbody hr⟩
  · intro hden
    simp only [enrichInstallerWebsite, if_neg hurl]
    rw [if_pos hden]
    exact ⟨rfl, rfl, rfl⟩
  · intro hnof
    cases hcr : checkRobotsTxt robots with
    | false => rfl
    | true =>
      rw [hbody hcr] at hnof
      cases hnof

/-- Witness for C8: a 404 robots.txt leads to an attempted homepage fetch
(and a successful classification of the HTML page), while a parsed
disallow yields the "not permitted" failure without fetching. -/
theorem robots_policy_gate_witness :
    (checkRobotsTxt (RobotsFetch.response 404 false) = true ∧
      (enrichInstallerWebsite (RobotsFetch.response 404 false)
        (some ⟨200, "OK", some "text/html", "<p>Tesla Powerwall</p>"⟩)
        "example.com").2 = true) ∧
    ((enrichInstallerWebsite (RobotsFetch.response 200 false)
        (some ⟨200, "OK", some "text/html", "<p>Tesla Powerwall</p>"⟩)
        "example.com").1.error = some "Robots.txt disallows crawling" ∧
     (enrichInstallerWebsite (RobotsFetch.response 200 false)
        (some ⟨200, "OK", some "text/html", "<p>Tesla Powerwall</p>"⟩)
        "example.com").1.success = false ∧
     (enrichInstallerWebsite (RobotsFetch.response 200 false)
        (some ⟨200, "OK", some "text/html", "<p>Tesla Powerwall</p>"⟩)
        "example.com").2 = false) := by
  constructor
  · exact (robots_policy_gate (RobotsFetch.response 404 false)
      (some ⟨200, "OK", some "text/html", "<p>Tesla Powerwall</p>"⟩)
      "example.com" (by decide)).2.1 404 false rfl (by decide)
  · exact (robots_policy_gate (RobotsFetch.response 200 false)
      (some ⟨200, "OK", some "text/html", "<p>Tesla Powerwall</p>"⟩)
      "example.com" (by decide)).2.2.1 (by decide)

/-- Claim C9 (confirmed): the classifier returns exactly the set of
category slugs of the fixed keyword table for which some keyword
(lowercased) occurs as a substring of the text — it is a pure function of
the text and the table, hence deterministic; in particular the Tesla
Powerwall sentence is classified as battery_backup and the contentless
sentence matches no category. -/
theorem classifier_exact_set :
    (∀ text slug, slug ∈ detectSpecialties text ↔
      ∃ kws, (slug, kws) ∈ SPECIALTY_KEYWORDS ∧
        ∃ kw ∈ kws, (strToLower kw).toList <:+: text.toList) ∧
    "battery_backup" ∈ detectSpecialties "we install tesla powerwall systems" ∧
    detectSpecialties "plain static page with no content" = [] := by
  refine ⟨?_, ?_, ?_⟩
  · intro text slug
    simp only [detectSpecialties, List.mem_map, List.mem_filter, List.any_eq_true,
      includes_iff_infix]
    constructor
    · rintro ⟨⟨s, kws⟩, ⟨hmem, kw, hkw, hinf⟩, rfl⟩
      exact ⟨kws, hmem, kw, hkw, hinf⟩
    · rintro ⟨kws, hmem, kw, hkw, hinf⟩
      exact ⟨(slug, kws), ⟨hmem, kw, hkw, hinf⟩, rfl⟩
  · decide
  · decide

/-- Claim C10 (corrected, counterexample): an element whose resolved
latitude is 0 is not necessarily dropped.  With nonzero direct coordinates
(lat 1, lon 2) and a center pair (0, 3), the truthiness filter passes on the
direct coordinates, but resolution prefers the center, so the element
survives discovery with resolved latitude exactly 0. -/
theorem zero_coordinate_counterexample :
    (discoverSolarInstallers
      [⟨"node", 7, some 1, some 2, some (0, 3), [("name", "Solar Co")]⟩]).map
      (fun c => (c.lat, c.lon)) = [((0 : ℚ), (3 : ℚ))] := by
  decide

/-- Claim C10 (corrected, amended): zero coordinates behave as missing in
each check that consults them — an element with no center and a zero (or
absent) direct latitude or longitude fails the coordinate filter, an
element whose center has a zero component and whose direct coordinates are
not both truthy fails it too, and a run invoked without a location string
and with raw latitude or longitude 0 is rejected as missing coordinates
before any external call — but when an element carries both nonzero direct
coordinates and a center with a zero component, the filter tests the direct
pair while resolution uses the center, so a resolved zero coordinate can
survive (see the counterexample). -/
theorem zero_coordinate_amended :
    (∀ e : OverpassElement, e.center = none → (e.lat = some 0 ∨ e.lon = some 0) →
      hasCoords e = false) ∧
    (∀ e : OverpassElement, ∀ la lo : ℚ, e.center = some (la, lo) → (la = 0 ∨ lo = 0) →
      (numTruthy e.lat = false ∨ numTruthy e.lon = false) → hasCoords e = false) ∧
    (∀ (geocoder : String → Option (ℚ × ℚ))
       (overpassOracle : ℚ → ℚ → ℚ → Option (List OverpassElement))
       (store : List Installer) (body : DiscoverBody),
      body.location = none → (body.lat = some 0 ∨ body.lon = some 0) →
      (discoverRoute geocoder overpassOracle store body).response =
        RouteResponse.missingCoords ∧
      (discoverRoute geocoder overpassOracle store body).calls = []) := by
  refine ⟨?_, ?_, ?_⟩
  · intro e hc hz
    rcases hz with hz | hz <;> simp [hasCoords, hc, hz, numTruthy]
  · intro e la lo hc hz hn
    have h1 : (match e.center with
        | some c => numTruthy (some c.1) && numTruthy (some c.2)
        | none => false) = false := by
      rw [hc]
      rcases hz with hz | hz <;> subst hz <;> simp [numTruthy]
    have h2 : (numTruthy e.lat && numTruthy e.lon) = false := by
      rcases hn with hn | hn <;> simp [hn]
    simp only [hasCoords, h1, h2, Bool.or_self]
  · intro geocoder overpassOracle store body hloc hz
    obtain ⟨blat, blon, brad, bloc⟩ := body
    simp only at hloc
    subst hloc
    have hroute : discoverRoute geocoder overpassOracle store ⟨blat, blon, brad, none⟩ =
        discoverAfterCoords overpassOracle store ⟨blat, blon, brad, none⟩ [] blat blon := rfl
    have hmiss : ¬ (numTruthy blat = true ∧ numTruthy blon = true) := by
      rcases hz with hz | hz <;> simp only at hz <;> subst hz <;>
        simp [numTruthy]
    have hval : discoverAfterCoords overpassOracle store ⟨blat, blon, brad, none⟩ [] blat blon =
        { calls := [], response := RouteResponse.missingCoords, store := store } := by
      simp only [discoverAfterCoords]
      rw [if_pos hmiss]
    rw [hroute, hval]
    exact ⟨rfl, rfl⟩

/-- Witness for C10: an element with only direct coordinates and latitude 0
fails the coordinate filter, and a coordinate-keyed run with raw latitude 0
is rejected as missing coordinates with no external call. -/
theorem zero_coordinate_amended_witness :
    hasCoords ⟨"node", 8, some 0, some 5, none, [("name", "Solar Co")]⟩ = false ∧
    (discoverRoute (fun _ => some (36, -119)) (fun _ _ _ => some []) []
        ⟨some 0, some 5, none, none⟩).response = RouteResponse.missingCoords ∧
    (discoverRoute (fun _ => some (36, -119)) (fun _ _ _ => some []) []
        ⟨some 0, some 5, none, none⟩).calls = [] := by
  refine ⟨?_, ?_⟩
  · exact zero_coordinate_amended.1 ⟨"node", 8, some 0, some 5, none, [("name", "Solar Co")]⟩
      rfl (Or.inl rfl)
  · exact zero_coordinate_amended.2.2 (fun _ => some (36, -119)) (fun _ _ _ => some [])
      [] ⟨some 0, some 5, none, none⟩ rfl (Or.inl rfl)

/-- Claim C6 (confirmed): when reconciliation updates an existing installer,
every optional field that is absent in the candidate is carried forward from
the stored record (the ORM skips fields whose update value is undefined),
and a field the candidate supplies overwrites the stored one. -/
theorem reconcile_carry_forward (r : Installer) (c : InstallerCandidate) :
    (c.phone = none → (applyUpdate r c).phone = r.phone) ∧
    (c.website = none → (applyUpdate r c).website = r.website) ∧
    (c.address = none → (applyUpdate r c).address = r.address) ∧
    (c.city = none → (applyUpdate r c).city = r.city) ∧
    (c.state = none → (applyUpdate r c).state = r.state) ∧
    (c.postal = none → (applyUpdate r c).postal = r.postal) ∧
    (∀ v, c.phone = some v → (applyUpdate r c).phone = some v) ∧
    (∀ v, c.website = some v → (applyUpdate r c).website = some v) ∧
    (∀ v, c.address = some v → (applyUpdate r c).address = some v) := by
  refine ⟨?_, ?_, ?_, ?_, ?_, ?_, ?_, ?_, ?_⟩ <;>
    first
      | (intro h; simp [applyUpdate, h])
      | (intro v h; simp [applyUpdate, h])

/-- Witness for C6: a candidate with no phone, website or address leaves
those stored values untouched while overwriting the city it does supply. -/
theorem reconcile_carry_forward_witness :
    (applyUpdate
      ⟨some "node/1", "Acme Solar", 36, -119, some "1 Main St", some "Fresno",
        some "CA", some "93650", some "555-1234", some "acme.example"⟩
      ⟨"node/1", "Acme Solar", 36, -119, none, some "Clovis", none, none, none, none⟩).phone =
      some "555-1234" := by
  exact (reconcile_carry_forward _ _).1 rfl

end SolarPipeline
